import Mathlib

/-!
# Verification of the Tenant-App maintenance-request orchestrator

Shallow embedding of the maintenance-request submission pipeline
(`app/api/maintenance` POST route) and of the text-analysis fallback
classifier (`app/api/analyze-request`), together with proofs of the
spec's testable properties.

Strings are modelled at the character level (`List Char`); JavaScript
string primitives (`split`, `replace`, `trim`, regex scans) are embedded
as executable functions on character lists.
-/

set_option maxRecDepth 16384

namespace TenantApp

/-! ## Character-level string primitives (JavaScript semantics) -/

/-- Whitespace characters relevant to `String.prototype.trim` / `\s`
for the strings manipulated by the route (space, newline, tab, CR). -/
def isWS (c : Char) : Bool := [' ', '\n', '\t', '\r'].contains c

/-- `str.split(sep)` for a one-character separator.  JavaScript returns
`[""]` on the empty string and keeps empty segments. -/
def splitCh (sep : Char) : List Char → List (List Char)
  | [] => [[]]
  | c :: cs =>
    if c = sep then [] :: splitCh sep cs
    else
      match splitCh sep cs with
      | [] => [[c]]
      | h :: t => (c :: h) :: t

/-- `arr.join('\n')` on character lists. -/
def joinNL : List (List Char) → List Char
  | [] => []
  | [x] => x
  | x :: y :: t => x ++ '\n' :: joinNL (y :: t)

/-- Worker for `replace(/\n+/g, '\n')`: the flag records whether the
previous emitted character was a newline (i.e. we are inside a run). -/
def collapseAux : Bool → List Char → List Char
  | _, [] => []
  | prevNL, c :: cs =>
    if c = '\n' then
      if prevNL then collapseAux true cs else '\n' :: collapseAux true cs
    else c :: collapseAux false cs

/-- `str.replace(/\n+/g, '\n')`. -/
def collapseNL (l : List Char) : List Char := collapseAux false l

/-- Drop trailing whitespace. -/
def trimEnd (l : List Char) : List Char := (l.reverse.dropWhile isWS).reverse

/-- `str.trim()`. -/
def trimBoth (l : List Char) : List Char := trimEnd (l.dropWhile isWS)

/-- Does `pat` occur at the head of `l`? (`leadsWith pat l`). -/
def leadsWith : List Char → List Char → Bool
  | p :: ps, c :: cs => p == c && leadsWith ps cs
  | [], _ => true
  | _, _ => false

/-- Substring search: does `pat` occur anywhere in `l`?  This is what a
JavaScript regex alternation of literal words tests. -/
def hasSub (pat : List Char) : List Char → Bool
  | [] => leadsWith pat []
  | c :: t => leadsWith pat (c :: t) || hasSub pat t

/-! ## The `Step N:` regex `/Step \d+:/` -/

/-- After at least one digit has been consumed: skip further digits and
then require a `':'`. -/
def checkColonAfterDigits : List Char → Bool
  | [] => false
  | c :: t => if c.isDigit then checkColonAfterDigits t else c == ':'

/-- `\d+:` at the head of the list. -/
def checkDigitsColon : List Char → Bool
  | [] => false
  | c :: t => c.isDigit && checkColonAfterDigits t

/-- Does `/Step \d+:/` match at the head of the list? -/
def isStepStart : List Char → Bool
  | a :: b :: c :: d :: e :: rest =>
    a == 'S' && b == 't' && c == 'e' && d == 'p' && e == ' ' && checkDigitsColon rest
  | _ => false

/-- `str.replace(/(Step \d+:)/g, '\n$1')`: insert a newline before every
occurrence of the pattern.  Matches of this pattern cannot overlap (a
match contains exactly one `'S'`, at its head), so inserting before each
position where the pattern matches and advancing one character at a time
agrees with the JavaScript left-to-right global replacement. -/
def insertStep : List Char → List Char
  | [] => []
  | c :: cs =>
    if isStepStart (c :: cs) then '\n' :: c :: insertStep cs
    else c :: insertStep cs

/-! ## Local fallback urgency classifier (`app/api/analyze-request`) -/

def criticalKeywords : List String :=
  ["gas leak", "electrical spark", "fire hazard", "flood", "no power",
   "broken window", "no lock", "no heat", "no water", "raw sewage",
   "exposed wire", "structural collapse"]

def highKeywords : List String :=
  ["leak", "flooding", "electrical", "not working", "broken", "clog",
   "overflow", "pest", "mold", "no hot water", "water damage", "exposed pipe"]

def mediumKeywords : List String :=
  ["slow", "drip", "minor", "cosmetic", "paint", "scratch", "loose",
   "stain", "sticking", "noisy"]

/-- `determineFallbackUrgency` from `app/api/analyze-request/route.ts`:
lowercase the description, then test the three keyword alternations in
order (a regex `.test` is substring search). -/
def determineFallbackUrgency (description : String) : Nat :=
  let lowerDesc := description.toList.map Char.toLower
  if criticalKeywords.any (fun kw => hasSub kw.toList lowerDesc) then 4
  else if highKeywords.any (fun kw => hasSub kw.toList lowerDesc) then 3
  else if mediumKeywords.any (fun kw => hasSub kw.toList lowerDesc) then 2
  else 2

/-- Claim-side reading of "the lowercased string contains some keyword of
the set as a substring (case-insensitive)". -/
def containsAnyOf (s : String) (kws : List String) : Bool :=
  kws.any (fun kw => hasSub kw.toList (s.toList.map Char.toLower))

/-! ## Further string helpers used by the maintenance POST route -/

/-- Summarization fallback: `raw.length > 200 ? raw.substring(0, 200) + '...' : raw`. -/
def truncate200 (raw : String) : String :=
  if raw.length > 200 then ((raw.toList.take 200).asString) ++ "..." else raw

/-- `str.replace(pat, '')` for a plain string pattern: remove the first
occurrence of `pat` (no-op when `pat` does not occur). -/
def removeFirstOcc (pat : List Char) : List Char → List Char
  | [] => []
  | c :: t =>
    if leadsWith pat (c :: t) then (c :: t).drop pat.length
    else c :: removeFirstOcc pat t

/-- Scanner for `str.replace(/<[^>]*>/g, '')`.  The second argument is
`none` outside a candidate match and `some buf` after an unmatched `'<'`
whose `[^>]*` content so far is `buf`; a closing `'>'` discards the
buffered span, end of input re-emits it literally (the regex needs a
closing `'>'` to match). -/
def removeTagsAux : List Char → Option (List Char) → List Char
  | [], none => []
  | [], some buf => '<' :: buf
  | c :: t, none => if c = '<' then removeTagsAux t (some []) else c :: removeTagsAux t none
  | c :: t, some buf =>
    if c = '>' then removeTagsAux t none else removeTagsAux t (some (buf ++ [c]))

/-- `str.replace(/<[^>]*>/g, '')`. -/
def removeTags (l : List Char) : List Char := removeTagsAux l none

/-- `/Step \d+:\s*/` at the head of the list: on a match, return the rest
after the pattern (including the greedy `\s*`). -/
def matchStepWS : List Char → Option (List Char)
  | a :: b :: c :: d :: e :: rest =>
    if a == 'S' && b == 't' && c == 'e' && d == 'p' && e == ' ' then
      afterStepDigits rest
    else none
  | _ => none
where
  /-- `\d+:\s*` at the head; returns the rest after the whitespace. -/
  afterStepDigits : List Char → Option (List Char)
    | [] => none
    | c :: t =>
      if c.isDigit then afterStepMoreDigits t else none
  /-- After ≥1 digit: more digits, then `':'`, then skip `\s*`. -/
  afterStepMoreDigits : List Char → Option (List Char)
    | [] => none
    | c :: t =>
      if c.isDigit then afterStepMoreDigits t
      else if c = ':' then some (t.dropWhile isWS) else none

/-- `step.replace(/Step \d+:\s*/, '')`: remove the first match of the
step-marker pattern (with its trailing whitespace) anywhere in the line. -/
def stripStepMark : List Char → List Char
  | [] => []
  | c :: t =>
    match matchStepWS (c :: t) with
    | some rest => rest
    | none => c :: stripStepMark t

/-- `\d+` followed by `':'` at the head: return the digits. -/
def digitsBeforeColon (l : List Char) : Option (List Char) :=
  let ds := l.takeWhile Char.isDigit
  if ds = [] then none
  else
    match l.drop ds.length with
    | ':' :: _ => some ds
    | _ => none

/-- `step.match(/Step (\d+):/)?.[1]`: the digits of the first step marker
occurring in the line, if any. -/
def stepNumOf : List Char → Option (List Char)
  | [] => none
  | a :: t =>
    match a :: t with
    | a :: b :: c :: d :: e :: rest =>
      if a == 'S' && b == 't' && c == 'e' && d == 'p' && e == ' ' then
        match digitsBeforeColon rest with
        | some ds => some ds
        | none => stepNumOf t
      else stepNumOf t
    | _ => stepNumOf t

/-- `url.split('/').pop() || 'unknown'`. -/
def lastSegment (url : String) : String :=
  match (splitCh '/' url.toList).getLast? with
  | some [] => "unknown"
  | some seg => seg.asString
  | none => "unknown"

/-! ## Procedure formatter (`formatProcedureMessage`, pure helper of the
maintenance POST route) -/

/-- The canned 5-step English fallback of `formatProcedureMessage`. -/
def fallbackStepsEn (summary : List Char) : List Char :=
  "Step 1: Inspect the reported issue: \"".toList ++ summary ++
  ("\"\nStep 2: Assess necessary repairs and gather materials" ++
   "\nStep 3: Perform the required maintenance work" ++
   "\nStep 4: Test that the issue is resolved" ++
   "\nStep 5: Clean the work area and update maintenance records").toList

/-- The canned 5-step Tagalog fallback of `formatProcedureMessage`. -/
def fallbackStepsTl (summary : List Char) : List Char :=
  "Step 1: Suriin ang iniulat na isyu: \"".toList ++ summary ++
  ("\"\nStep 2: Tayahin ang kinakailangang pagkumpuni at tipunin ang mga materyales" ++
   "\nStep 3: Isagawa ang kinakailangang pag-aayos" ++
   "\nStep 4: Subukan kung naayos na ang isyu" ++
   "\nStep 5: Linisin ang lugar at i-update ang mga talaan ng pag-aayos").toList

/-- The normalization performed on the incoming procedure text:
`.replace(/(Step \d+:)/g, '\n$1').replace(/\n+/g, '\n').trim()`. -/
def normalizeSteps (l : List Char) : List Char := trimBoth (collapseNL (insertStep l))

/-- The `cleanedProcedure` value of `formatProcedureMessage` after the
fallback test: the normalized input when it is non-empty and has at
least 3 newline-separated lines, else the canned template. -/
def chosenProcedure (procedure summary : List Char) (isTagalog : Bool) : List Char :=
  let cleaned := normalizeSteps procedure
  if cleaned = [] ∨ (splitCh '\n' cleaned).length < 3 then
    if isTagalog then fallbackStepsTl summary else fallbackStepsEn summary
  else cleaned

/-- `getUrgencyText` from the route: numeric level to display text. -/
def getUrgencyText : Nat → String
  | 1 => "Low"
  | 2 => "Medium"
  | 3 => "High"
  | 4 => "Critical"
  | _ => "Medium"

/-- `formatProcedureMessage` from the maintenance POST route. -/
def formatProcedureMessage (title procedure summary : String) (urgency : Nat)
    (isTagalog : Bool) : String :=
  let cleanedProcedure := chosenProcedure procedure.toList summary.toList isTagalog
  let languageNote : String := if isTagalog then "(Translated to Tagalog)" else ""
  let urgencyText := getUrgencyText urgency
  let noteText : String :=
    if isTagalog then
      "*Paunawa: Ito ay AI-generated na procedure at maaaring hindi magbigay ng eksaktong solusyon. Laging suriin ang sitwasyon nang propesyonal at sundin ang mga protocol sa kaligtasan.*"
    else
      "*Note: This is an AI-generated procedure and may not provide exact solutions. Always assess the situation professionally and follow safety protocols.*"
  "🔧 **MAINTENANCE REQUEST: " ++ (title.toList.map Char.toUpper).asString ++ "** " ++
    languageNote ++ "\n\n**Urgency Level:** " ++ toString urgency ++ "/4 (" ++ urgencyText ++
    ")\n**Issue Summary:** " ++ summary ++ "\n\n**MAINTENANCE PROCEDURE:**\n" ++
    cleanedProcedure.asString ++ "\n\n---\n" ++ noteText

/-! ## Data model of the maintenance POST route

The route is embedded as a pure function of the submitted form plus an
oracle environment describing the outcome of every external interaction
(session, user lookup, the five remote services, the message write).
Alongside the HTTP response it returns the database rows written and the
trace of external service calls issued. -/

structure ImageFile where
  name : String
  /-- MIME type (`File.type`). -/
  mime : String
  size : Nat
  deriving DecidableEq, Repr

structure SubmitForm where
  title : String
  rawRequest : String
  userId : Nat
  images : List ImageFile
  translateToTagalog : Bool
  /-- the `aiAnalysis` form field, when present -/
  aiAnalysis : Option String
  deriving DecidableEq, Repr

structure UserRec where
  propertyId : Option Nat
  deriving DecidableEq, Repr

structure PyAnalysis where
  components : List String
  riskLevel : Option String
  deriving DecidableEq, Repr

structure PyImageResult where
  success : Bool
  description : String
  maintenanceIssue : String
  analysis : Option PyAnalysis
  deriving DecidableEq, Repr

structure ImageAnalysisData where
  descriptions : List String
  maintenanceIssues : List String
  components : List String
  riskLevels : List String
  deriving DecidableEq, Repr

/-- Successful response body of the summarization service; `none` fields
model absent/falsy values (`summary || rawRequest`,
`analyzedUrgency || urgencyLevel`). -/
structure SummarizeResp where
  summary : Option String
  urgencyLevel : Option Nat
  deriving DecidableEq, Repr

inductive UploadOutcome where
  /-- the `fetch` threw -/
  | thrown
  /-- the upload endpoint answered with a JSON body -/
  | resp (success : Bool) (urls : List String) (message : String)
  deriving DecidableEq, Repr

inductive ServiceCall where
  | pythonAnalyze
  | summarizeCall
  | procedureCall
  | translateCall (k : Nat)
  | uploadCall
  | trainingFeedback
  deriving DecidableEq, Repr

/-- Outcomes of all external interactions of one request. -/
structure Env where
  /-- authenticated session user id, if any -/
  session : Option Nat
  /-- `prisma.users.findUnique` result -/
  user : Option UserRec
  /-- image-understanding service: `some results` = ok response,
  `none` = non-ok response or thrown -/
  python : Option (List PyImageResult)
  /-- summarization service: `some` = ok response, `none` = non-ok or thrown -/
  summarize : Option SummarizeResp
  /-- procedure LLM: `some g` = response with `generated_text || ""` being
  `g`, `none` = the axios call threw -/
  procedureResp : Option String
  /-- per-step translation calls: `some t` = `translation_text` (truthy),
  `none` = thrown or falsy -/
  translate : Nat → Option String
  upload : UploadOutcome
  /-- `process.env.ENABLE_AI_TRAINING === 'true'` -/
  enableTraining : Bool
  /-- whether the landlord-message insert succeeds -/
  messageOk : Bool
  /-- `new Date().toISOString()` -/
  timestamp : String
  /-- id assigned to the created maintenance row -/
  newMaintenanceId : Nat

structure MaintRow where
  title : String
  userId : Nat
  propertyId : Nat
  rawRequest : String
  processedRequest : String
  urgency : String
  status : String
  deriving DecidableEq, Repr

structure ResourceRow where
  referenceId : Nat
  referenceType : String
  url : String
  fileName : String
  deriving DecidableEq, Repr

structure DocData where
  uploadedFiles : List String
  originalFilenames : List String
  userDescription : String
  processedRequest : String
  urgencyLevel : Nat
  procedureGenerated : String
  translatedToTagalog : Bool
  imageAnalysis : Option (List PyImageResult)
  frontendAiAnalysis : Option String
  summarizationUsed : Bool
  analysisTimestamp : String
  deriving DecidableEq, Repr

structure MsgRow where
  senderID : Nat
  receiverID : Nat
  message : String
  read : Bool
  deriving DecidableEq, Repr

structure SuccessResp where
  message : String
  maintenanceId : Nat
  summary : String
  urgency : Nat
  uploadedUrls : List String
  procedureSent : Bool
  translatedToTagalog : Bool
  aiAnalysisUsed : Bool
  summarizationUsed : Bool
  deriving DecidableEq, Repr

structure PostOutcome where
  status : Nat
  errorMessage : Option String
  /-- external service calls issued, in order -/
  calls : List ServiceCall
  resp : Option SuccessResp
  /-- stage-3 output (`procedureText`), observed for verification -/
  procedureText : String
  maintenanceRows : List MaintRow
  resourceRows : List ResourceRow
  docRows : List DocData
  messageRows : List MsgRow
  deriving DecidableEq, Repr

def PostOutcome.emptyWith (status : Nat) (msg : String) : PostOutcome :=
  { status := status, errorMessage := some msg, calls := [], resp := none,
    procedureText := "", maintenanceRows := [], resourceRows := [],
    docRows := [], messageRows := [] }

/-! ## The maintenance POST route -/

/-- The per-image loop of step 3️⃣: MIME check then size check, per image
in order. -/
def checkImages : List ImageFile → Option String
  | [] => none
  | i :: rest =>
    if ¬ leadsWith "image/".toList i.mime.toList then some "Only image files are allowed."
    else if i.size > 10 * 1024 * 1024 then some "File size must be below 10MB."
    else checkImages rest

/-- Step 3️⃣ input validation, in source order. -/
def validateSubmission (f : SubmitForm) : Option String :=
  if f.title = "" ∨ f.rawRequest = "" ∨ f.images = [] then
    some "All fields including at least one image are required."
  else if f.title.length < 5 then some "Title must be at least 5 characters long."
  else if f.rawRequest.length < 10 then some "Description must be at least 10 characters long."
  else if f.images.length > 5 then some "Maximum of 5 images allowed."
  else checkImages f.images

/-- Step 4️⃣: `!user || !user.propertyId` is falsy-rejecting, so a missing
user, a null propertyId and a zero propertyId all fail. -/
def propertyCheck : Option UserRec → Option Nat
  | none => none
  | some u =>
    match u.propertyId with
    | none => none
    | some pid => if pid = 0 then none else some pid

/-- The procedure-generation prompt (template literal of step 8️⃣,
whitespace faithful to the source). -/
def mkProcedurePrompt (title rawRequest finalProcessedRequest : String)
    (urgencyLevel : Nat) (imageAnalysisData : Option ImageAnalysisData) : String :=
  "\n        Create a step-by-step maintenance procedure for this rental property issue:\n        \n        TITLE: \"" ++
  title ++ "\"\n        ORIGINAL DESCRIPTION: \"" ++ rawRequest ++
  "\"\n        SUMMARIZED ISSUE: \"" ++ finalProcessedRequest ++
  "\"\n        URGENCY: Level " ++ toString urgencyLevel ++ "/4\n        " ++
  (match imageAnalysisData with
   | some d => "AI IDENTIFIED COMPONENTS: " ++ String.intercalate ", " d.components
   | none => "") ++
  ("\n        \n        Provide 3-5 clear steps for maintenance staff. Format exactly as:" ++
   "\n        Step 1: [First action - inspection/assessment]" ++
   "\n        Step 2: [Second action - preparation/gathering]" ++
   "\n        Step 3: [Third action - repair/implementation] " ++
   "\n        Step 4: [Fourth action - testing/verification]" ++
   "\n        Step 5: [Fifth action - cleanup/follow-up]" ++
   "\n        \n        Make steps practical, actionable, and specific to rental property maintenance." ++
   "\n        Consider safety protocols and property preservation.\n      ")

/-- The canned procedure used when the LLM call throws (catch of step 8️⃣). -/
def cannedProcedure (finalProcessedRequest : String) : String :=
  "Step 1: Inspect the reported issue: \"" ++ finalProcessedRequest ++
  "\"\nStep 2: Gather necessary tools and materials\nStep 3: Perform required repairs\nStep 4: Test the repair\nStep 5: Clean up and document work"

/-- Step 9️⃣ reassembly: `steps.map((step, index) => ...)` — each step line
is rebuilt as `Step N: <translated or original content>`, where `N` comes
from the original line's first step marker (or `index + 1`). -/
def assembleSteps (tr : Nat → Option String) (i : Nat) : List (List Char) → List (List Char)
  | [] => []
  | step :: rest =>
    ("Step ".toList ++ ((stepNumOf step).getD (toString (i + 1)).toList) ++
      ':' :: ' ' :: (((tr i).map String.toList).getD (stripStepMark step))) ::
    assembleSteps tr (i + 1) rest

/-- The step lines of the procedure: `split('\n').filter(line =>
line.startsWith('Step'))`. -/
def stepLinesOf (procedureText : String) : List (List Char) :=
  (splitCh '\n' procedureText.toList).filter (fun l => leadsWith "Step".toList l)

/-- Step 9️⃣: translate each step independently; any single failure keeps
that step's original content. -/
def translationStage (procedureText : String) (tr : Nat → Option String) : String :=
  (joinNL (assembleSteps tr 0 (stepLinesOf procedureText))).asString

/-- Step 6️⃣: the `imageAnalysisData` extracted from the
image-understanding response, when the latter succeeded with a non-empty
result list. -/
def imageAnalysisDataOf (env : Env) : Option ImageAnalysisData :=
  match env.python with
  | some results =>
    if results.length > 0 then
      let successfulResults := results.filter (·.success)
      some { descriptions := successfulResults.map (·.description)
             maintenanceIssues := successfulResults.map (·.maintenanceIssue)
             components := successfulResults.flatMap
               (fun r => ((r.analysis.map (·.components)).getD []))
             riskLevels := successfulResults.map
               (fun r => ((r.analysis.bind (·.riskLevel)).getD "medium")) }
    else none
  | none => none

/-- Step 7️⃣: `finalProcessedRequest` — the remote summary when truthy,
the raw description as ok-response fallback, the truncation on failure. -/
def finalSummaryOf (f : SubmitForm) (env : Env) : String :=
  match env.summarize with
  | some r => r.summary.getD f.rawRequest
  | none => truncate200 f.rawRequest

/-- Step 7️⃣: `urgencyLevel` — starts at the default 2, replaced by a
truthy `analyzedUrgency` from a successful summarization response. -/
def urgencyLevelOf (env : Env) : Nat :=
  match env.summarize with
  | some r => r.urgencyLevel.getD 2
  | none => 2

/-- Step 8️⃣: `procedureText` — the cleaned LLM output, or the canned
template when the call threw. -/
def procedureTextOf (f : SubmitForm) (env : Env) : String :=
  match env.procedureResp with
  | some g =>
    (trimBoth (removeTags (removeFirstOcc
      (mkProcedurePrompt f.title f.rawRequest (finalSummaryOf f env) (urgencyLevelOf env)
        (imageAnalysisDataOf env)).toList g.toList))).asString
  | none => cannedProcedure (finalSummaryOf f env)

/-- Step 1️⃣1️⃣: the `uploadedUrls` list — service URLs on success, a
single failure-marker string otherwise. -/
def uploadedUrlsOf (env : Env) : List String :=
  match env.upload with
  | .thrown => ["Image upload service temporarily unavailable"]
  | .resp true urls _ => urls
  | .resp false _ msg => ["Failed to upload: " ++ msg]

/-- The validated-request pipeline (steps 5️⃣–1️⃣7️⃣). -/
def runPipeline (f : SubmitForm) (env : Env) (propertyId : Nat) : PostOutcome :=
  -- 6️⃣ visual analysis
  let pythonResults := env.python
  -- 7️⃣ summarization & urgency
  let finalProcessedRequest : String := finalSummaryOf f env
  let urgencyLevel : Nat := urgencyLevelOf env
  -- 8️⃣ procedure generation
  let procedureText : String := procedureTextOf f env
  -- 9️⃣ optional translation
  let steps := stepLinesOf procedureText
  let tagalogProcedure : String :=
    if f.translateToTagalog then translationStage procedureText env.translate else ""
  -- 🔟 format
  let formattedProcedure :=
    formatProcedureMessage f.title
      (if f.translateToTagalog then tagalogProcedure else procedureText)
      finalProcessedRequest urgencyLevel f.translateToTagalog
  -- 1️⃣1️⃣ upload
  let uploadedUrls : List String := uploadedUrlsOf env
  -- 1️⃣2️⃣–1️⃣4️⃣ persistence
  let maintenanceId := env.newMaintenanceId
  let maint : MaintRow :=
    { title := f.title, userId := f.userId, propertyId := propertyId
      rawRequest := f.rawRequest, processedRequest := finalProcessedRequest
      urgency := getUrgencyText urgencyLevel, status := "pending" }
  let resources : List ResourceRow := uploadedUrls.map
    (fun url => { referenceId := maintenanceId, referenceType := "Maintenance"
                  url := url, fileName := lastSegment url })
  let doc : DocData :=
    { uploadedFiles := uploadedUrls, originalFilenames := f.images.map (·.name)
      userDescription := f.rawRequest, processedRequest := finalProcessedRequest
      urgencyLevel := urgencyLevel, procedureGenerated := formattedProcedure
      translatedToTagalog := f.translateToTagalog, imageAnalysis := pythonResults
      frontendAiAnalysis := f.aiAnalysis, summarizationUsed := true
      analysisTimestamp := env.timestamp }
  -- 1️⃣6️⃣ best-effort landlord message (receiver is the fixed id 2)
  let msgRows : List MsgRow :=
    if env.messageOk then
      [{ senderID := f.userId, receiverID := 2, message := formattedProcedure, read := false }]
    else []
  let calls : List ServiceCall :=
    [.pythonAnalyze, .summarizeCall, .procedureCall] ++
    (if f.translateToTagalog then (List.range steps.length).map .translateCall else []) ++
    [.uploadCall] ++
    (if pythonResults.isSome && env.enableTraining then [.trainingFeedback] else [])
  -- 1️⃣7️⃣ success response
  { status := 201, errorMessage := none, calls := calls
    resp := some
      { message := "Maintenance request submitted successfully"
        maintenanceId := maintenanceId, summary := finalProcessedRequest
        urgency := urgencyLevel, uploadedUrls := uploadedUrls
        procedureSent := true, translatedToTagalog := f.translateToTagalog
        aiAnalysisUsed := pythonResults.isSome, summarizationUsed := true }
    procedureText := procedureText
    maintenanceRows := [maint], resourceRows := resources
    docRows := [doc], messageRows := msgRows }

/-- The maintenance POST route. -/
def maintenancePOST (f : SubmitForm) (env : Env) : PostOutcome :=
  match env.session with
  | none => .emptyWith 401 "Unauthorized"
  | some _ =>
    match validateSubmission f with
    | some msg => .emptyWith 400 msg
    | none =>
      match propertyCheck env.user with
      | none => .emptyWith 400 "User property not found."
      | some propertyId => runPipeline f env propertyId

/-! ## Claim-side predicates and auxiliary definitions for the proofs -/

/-- Number of valid `Step N:` lines (lines beginning with the full step
marker) of a text. -/
def stepLineCount (l : List Char) : Nat :=
  ((splitCh '\n' l).filter (fun ln => isStepStart ln)).length

/-- No two consecutive newline characters (so `replace(/\n+/g, '\n')` is
the identity away from freshly inserted newlines). -/
def noNLNL : List Char → Bool
  | [] => true
  | [_] => true
  | a :: b :: t => !(a == '\n' && b == '\n') && noNLNL (b :: t)

/-- A chunk in which no suffix can begin a `/Step \d+:/` match, whatever
follows it: every `'S'` is followed, inside the chunk, by a character
other than `'t'`. -/
def safeChunk : List Char → Bool
  | [] => true
  | [c] => c != 'S'
  | c :: d :: t => (c != 'S' || d != 't') && safeChunk (d :: t)

/-- The flag state of `collapseAux` after processing `u` (was the last
character a newline?). -/
def endFlag (b : Bool) : List Char → Bool
  | [] => b
  | c :: t => endFlag (c == '\n') t

/-- A summary is step-safe when no suffix of it, closed by the `'"'` that
follows it in the canned fallback, starts a `/Step \d+:/` match. -/
def stepSafe (s : List Char) : Prop :=
  ∀ i < s.length, isStepStart (s.drop i ++ ['"']) = false

instance (s : List Char) : Decidable (stepSafe s) := by
  unfold stepSafe
  infer_instance

/-! ## Concrete fixtures for witnesses and counterexamples -/

def okImage : ImageFile := { name := "sink.jpg", mime := "image/jpeg", size := 1024 }

def okForm : SubmitForm :=
  { title := "Leaky faucet"
    rawRequest := "Water drips constantly from the kitchen faucet"
    userId := 7, images := [okImage], translateToTagalog := false, aiAnalysis := none }

/-- Environment in which every remote service fails. -/
def allFailEnv : Env :=
  { session := some 7, user := some { propertyId := some 3 }, python := none
    summarize := none, procedureResp := none, translate := fun _ => none
    upload := .thrown, enableTraining := false, messageOk := true
    timestamp := "2025-01-01T00:00:00.000Z", newMaintenanceId := 1 }

/-- Environment whose summarization service answers with urgency level 7. -/
def urgency7Env : Env :=
  { allFailEnv with summarize := some { summary := some "Pipe leaking", urgencyLevel := some 7 } }

/-- A submission whose title has only 4 characters. -/
def shortTitleForm : SubmitForm := { okForm with title := "Sink" }

/-- Environment in which the upload succeeds and everything else fails. -/
def uploadOkEnv : Env :=
  { allFailEnv with upload := .resp true ["https://raw.example/maintenance/3/sink.jpg"] "" }

/-! ### Segment decompositions of the canned fallback templates -/

/-- The English `Step 1:` line after its leading `'S'`, up to the opening
quote of the interpolated summary. -/
def enA1 : List Char := "tep 1: Inspect the reported issue: \"".toList

/-- The English template after the quote closing the summary. -/
def enTail : List Char :=
  ("\nStep 2: Assess necessary repairs and gather materials" ++
   "\nStep 3: Perform the required maintenance work" ++
   "\nStep 4: Test that the issue is resolved" ++
   "\nStep 5: Clean the work area and update maintenance records").toList

/-- Image of the quoted English tail under `insertStep`. -/
def enTailIns : List Char := insertStep ('"' :: enTail)

/-- The quoted English tail without its final character. -/
def enTailQ : List Char := ('"' :: enTail).dropLast

/-- The Tagalog `Step 1:` line after its leading `'S'`. -/
def tgA1 : List Char := "tep 1: Suriin ang iniulat na isyu: \"".toList

/-- The Tagalog template after the quote closing the summary. -/
def tgTail : List Char :=
  ("\nStep 2: Tayahin ang kinakailangang pagkumpuni at tipunin ang mga materyales" ++
   "\nStep 3: Isagawa ang kinakailangang pag-aayos" ++
   "\nStep 4: Subukan kung naayos na ang isyu" ++
   "\nStep 5: Linisin ang lugar at i-update ang mga talaan ng pag-aayos").toList

/-- Image of the quoted Tagalog tail under `insertStep`. -/
def tgTailIns : List Char := insertStep ('"' :: tgTail)

/-- The quoted Tagalog tail without its final character. -/
def tgTailQ : List Char := ('"' :: tgTail).dropLast

/-- A two-step procedure text used to exercise the translation stage. -/
def exProc : String := "Step 1: Check pipe\nStep 2: Replace washer"

/-- A translation oracle that succeeds on step 0 and fails on all others. -/
def exTr : Nat → Option String := fun k => if k = 0 then some "Suriin ang tubo" else none

/-- The success response produced for `okForm` under `allFailEnv`. -/
def okResp : SuccessResp :=
  { message := "Maintenance request submitted successfully"
    maintenanceId := 1
    summary := "Water drips constantly from the kitchen faucet"
    urgency := 2
    uploadedUrls := ["Image upload service temporarily unavailable"]
    procedureSent := true, translatedToTagalog := false
    aiAnalysisUsed := false, summarizationUsed := true }

/-! # Theorems -/

theorem checkImages_eq_none_iff (l : List ImageFile) :
    checkImages l = none ↔
      ∀ i ∈ l, leadsWith "image/".toList i.mime.toList = true ∧
        i.size ≤ 10 * 1024 * 1024 := by
  induction l with
  | nil => simp [checkImages]
  | cons i rest ih =>
    unfold checkImages
    by_cases hm : leadsWith "image/".toList i.mime.toList = true
    · rw [if_neg (not_not_intro hm)]
      by_cases hsz : i.size > 10 * 1024 * 1024
      · rw [if_pos hsz]
        constructor
        · intro h
          exact Option.noConfusion h
        · intro h
          have := (h i (List.mem_cons_self i rest)).2
          omega
      · rw [if_neg hsz, ih]
        constructor
        · intro h j hj
          rcases List.mem_cons.mp hj with rfl | hj'
          · exact ⟨hm, by omega⟩
          · exact h j hj'
        · intro h j hj
          exact h j (List.mem_cons_of_mem _ hj)
    · rw [if_pos hm]
      constructor
      · intro h
        exact Option.noConfusion h
      · intro h
        exact absurd (h i (List.mem_cons_self i rest)).1 hm

theorem validateSubmission_eq_none_iff (f : SubmitForm) :
    validateSubmission f = none ↔
      ¬(f.title.length < 5 ∨ f.rawRequest.length < 10 ∨ f.images.length = 0 ∨
        f.images.length > 5 ∨
        ∃ i ∈ f.images, leadsWith "image/".toList i.mime.toList = false ∨
          i.size > 10 * 1024 * 1024) := by
  unfold validateSubmission
  split_ifs with h1 h2 h3 h4
  · refine iff_of_false (by simp) (not_not_intro ?_)
    rcases h1 with h | h | h
    · exact Or.inl (by rw [h]; decide)
    · exact Or.inr (Or.inl (by rw [h]; decide))
    · exact Or.inr (Or.inr (Or.inl (by rw [h]; simp)))
  · exact iff_of_false (by simp) (not_not_intro (Or.inl h2))
  · exact iff_of_false (by simp) (not_not_intro (Or.inr (Or.inl h3)))
  · exact iff_of_false (by simp)
      (not_not_intro (Or.inr (Or.inr (Or.inr (Or.inl h4)))))
  · rw [checkImages_eq_none_iff]
    constructor
    · intro hall hD
      rcases hD with h | h | h | h | h
      · exact h2 h
      · exact h3 h
      · exact h1 (Or.inr (Or.inr (List.length_eq_zero.mp h)))
      · exact h4 h
      · obtain ⟨i, hi, hb⟩ := h
        have hok := hall i hi
        rcases hb with hb | hb
        · rw [hok.1] at hb
          exact Bool.noConfusion hb
        · omega
    · intro hnD i hi
      constructor
      · cases hlw : leadsWith "image/".toList i.mime.toList with
        | false =>
          exact (hnD (Or.inr (Or.inr (Or.inr (Or.inr ⟨i, hi, Or.inl hlw⟩))))).elim
        | true => rfl
      · by_cases hsz : i.size ≤ 10 * 1024 * 1024
        · exact hsz
        · exact (hnD (Or.inr (Or.inr (Or.inr (Or.inr
            ⟨i, hi, Or.inr (by omega)⟩))))).elim

theorem runPipeline_status (f : SubmitForm) (env : Env) (pid : Nat) :
    (runPipeline f env pid).status = 201 := rfl

theorem runPipeline_resp (f : SubmitForm) (env : Env) (pid : Nat) :
    (runPipeline f env pid).resp = some
      { message := "Maintenance request submitted successfully"
        maintenanceId := env.newMaintenanceId, summary := finalSummaryOf f env
        urgency := urgencyLevelOf env, uploadedUrls := uploadedUrlsOf env
        procedureSent := true, translatedToTagalog := f.translateToTagalog
        aiAnalysisUsed := env.python.isSome, summarizationUsed := true } := rfl

/-- C2: with an authenticated session, the maintenance POST returns a 400
client error with an empty external-call trace exactly when the title is
shorter than 5 characters, the description shorter than 10, the image
count is 0 or above 5, some attachment has a non-`image/*` MIME type or
exceeds 10MB, or the user has no (truthy) associated property record. -/
theorem C2_validation_rejects_before_any_call (f : SubmitForm) (env : Env) (uid : Nat)
    (hs : env.session = some uid) :
    ((maintenancePOST f env).status = 400 ∧ (maintenancePOST f env).calls = []) ↔
      (f.title.length < 5 ∨ f.rawRequest.length < 10 ∨ f.images.length = 0 ∨
        f.images.length > 5 ∨
        (∃ i ∈ f.images, leadsWith "image/".toList i.mime.toList = false ∨
          i.size > 10 * 1024 * 1024) ∨
        propertyCheck env.user = none) := by
  have hred : maintenancePOST f env =
      (match validateSubmission f with
       | some msg => .emptyWith 400 msg
       | none =>
         match propertyCheck env.user with
         | none => .emptyWith 400 "User property not found."
         | some pid => runPipeline f env pid) := by
    unfold maintenancePOST
    rw [hs]
  rw [hred]
  cases hv : validateSubmission f with
  | some msg =>
    have hD : f.title.length < 5 ∨ f.rawRequest.length < 10 ∨ f.images.length = 0 ∨
        f.images.length > 5 ∨
        ∃ i ∈ f.images, leadsWith "image/".toList i.mime.toList = false ∨
          i.size > 10 * 1024 * 1024 := by
      by_contra hcon
      have hnone := (validateSubmission_eq_none_iff f).mpr hcon
      rw [hv] at hnone
      exact Option.noConfusion hnone
    constructor
    · intro _
      exact hD.imp id (fun h => h.imp id (fun h => h.imp id (fun h => h.imp id Or.inl)))
    · intro _
      exact ⟨rfl, rfl⟩
  | none =>
    have hvalid := (validateSubmission_eq_none_iff f).mp hv
    cases hp : propertyCheck env.user with
    | none =>
      constructor
      · intro _
        exact Or.inr (Or.inr (Or.inr (Or.inr (Or.inr rfl))))
      · intro _
        exact ⟨rfl, rfl⟩
    | some pid =>
      constructor
      · intro hcontra
        rw [runPipeline_status] at hcontra
        exact absurd hcontra.1 (by decide)
      · intro hD
        have hP : ¬((some pid : Option Nat) = none) := by simp
        exact (hvalid (hD.imp id (fun h => h.imp id (fun h => h.imp id (fun h =>
          h.imp id (fun h => h.resolve_right hP)))))).elim


theorem C2_validation_rejects_before_any_call_witness :
    allFailEnv.session = some 7 ∧
    ((maintenancePOST shortTitleForm allFailEnv).status = 400 ∧
      (maintenancePOST shortTitleForm allFailEnv).calls = []) ∧
    ¬((maintenancePOST okForm allFailEnv).status = 400 ∧
      (maintenancePOST okForm allFailEnv).calls = []) :=
  ⟨rfl,
   (C2_validation_rejects_before_any_call shortTitleForm allFailEnv 7 rfl).mpr (by decide),
   fun hL =>
     absurd ((C2_validation_rejects_before_any_call okForm allFailEnv 7 rfl).mp hL)
       (by decide)⟩

theorem determineFallbackUrgency_eq (s : String) :
    determineFallbackUrgency s =
      (if containsAnyOf s criticalKeywords then 4
       else if containsAnyOf s highKeywords then 3
       else if containsAnyOf s mediumKeywords then 2
       else 2) := rfl

/-- C1: for every input string, `determineFallbackUrgency` returns 4 if
the lowercased string contains a critical-pattern keyword as a substring;
otherwise 3 if it contains a high-pattern keyword; otherwise 2 if it
contains a medium-pattern keyword; and 2 when nothing matches — first
match wins, matching is case-insensitive substring search. -/
theorem C1_fallback_urgency_classifier (s : String) :
    (containsAnyOf s criticalKeywords = true → determineFallbackUrgency s = 4) ∧
    (containsAnyOf s criticalKeywords = false → containsAnyOf s highKeywords = true →
      determineFallbackUrgency s = 3) ∧
    (containsAnyOf s criticalKeywords = false → containsAnyOf s highKeywords = false →
      containsAnyOf s mediumKeywords = true → determineFallbackUrgency s = 2) ∧
    (containsAnyOf s criticalKeywords = false → containsAnyOf s highKeywords = false →
      containsAnyOf s mediumKeywords = false → determineFallbackUrgency s = 2) := by
  refine ⟨fun h1 => ?_, fun h1 h2 => ?_, fun h1 h2 h3 => ?_, fun h1 h2 h3 => ?_⟩ <;>
    rw [determineFallbackUrgency_eq] <;>
    simp_all

theorem C1_fallback_urgency_classifier_witness :
    containsAnyOf "Gas leak near the stove" criticalKeywords = true ∧
    determineFallbackUrgency "Gas leak near the stove" = 4 :=
  ⟨by decide, (C1_fallback_urgency_classifier "Gas leak near the stove").1 (by decide)⟩

/-! ## Reduction lemmas for the route -/

theorem maintenancePOST_eq_runPipeline (f : SubmitForm) (env : Env) (uid pid : Nat)
    (hs : env.session = some uid) (hv : validateSubmission f = none)
    (hp : propertyCheck env.user = some pid) :
    maintenancePOST f env = runPipeline f env pid := by
  unfold maintenancePOST
  rw [hs, hv, hp]

theorem maintenancePOST_resp_inv (f : SubmitForm) (env : Env) (r : SuccessResp)
    (hr : (maintenancePOST f env).resp = some r) :
    ∃ uid pid, env.session = some uid ∧ validateSubmission f = none ∧
      propertyCheck env.user = some pid := by
  rcases hses : env.session with _ | uid
  · have heq : maintenancePOST f env = .emptyWith 401 "Unauthorized" := by
      unfold maintenancePOST
      rw [hses]
    rw [heq] at hr
    exact absurd hr (by simp [PostOutcome.emptyWith])
  · rcases hv : validateSubmission f with _ | msg
    · rcases hp : propertyCheck env.user with _ | pid
      · have heq : maintenancePOST f env = .emptyWith 400 "User property not found." := by
          unfold maintenancePOST
          rw [hses, hv, hp]
        rw [heq] at hr
        exact absurd hr (by simp [PostOutcome.emptyWith])
      · exact ⟨uid, pid, rfl, rfl, rfl⟩
    · have heq : maintenancePOST f env = .emptyWith 400 msg := by
        unfold maintenancePOST
        rw [hses, hv]
      rw [heq] at hr
      exact absurd hr (by simp [PostOutcome.emptyWith])

theorem runPipeline_maintenanceRows (f : SubmitForm) (env : Env) (pid : Nat) :
    (runPipeline f env pid).maintenanceRows =
      [{ title := f.title, userId := f.userId, propertyId := pid
         rawRequest := f.rawRequest, processedRequest := finalSummaryOf f env
         urgency := getUrgencyText (urgencyLevelOf env), status := "pending" }] := rfl

theorem runPipeline_resourceRows (f : SubmitForm) (env : Env) (pid : Nat) :
    (runPipeline f env pid).resourceRows =
      (uploadedUrlsOf env).map (fun url =>
        { referenceId := env.newMaintenanceId, referenceType := "Maintenance"
          url := url, fileName := lastSegment url }) := rfl

theorem runPipeline_procedureText (f : SubmitForm) (env : Env) (pid : Nat) :
    (runPipeline f env pid).procedureText = procedureTextOf f env := rfl

theorem runPipeline_doc_summarizationUsed (f : SubmitForm) (env : Env) (pid : Nat) :
    (runPipeline f env pid).docRows.map (·.summarizationUsed) = [true] := rfl

theorem urgencyLevelOf_none (env : Env) (h : env.summarize = none) :
    urgencyLevelOf env = 2 := by
  unfold urgencyLevelOf
  rw [h]

theorem urgencyLevelOf_some (env : Env) (sr : SummarizeResp) (h : env.summarize = some sr) :
    urgencyLevelOf env = sr.urgencyLevel.getD 2 := by
  unfold urgencyLevelOf
  rw [h]

theorem getUrgencyText_mem (u : Nat) :
    getUrgencyText u = "Low" ∨ getUrgencyText u = "Medium" ∨
      getUrgencyText u = "High" ∨ getUrgencyText u = "Critical" := by
  unfold getUrgencyText
  split <;> simp

/-- C4 (amended): the urgency defaults to 2 whenever classification
fails; the urgency text stored on the ticket is always one of the four
levels and corresponds to the numeric urgency; and the numeric urgency
returned to the caller lies in `{1,2,3,4}` provided the classifier's
successful response carries a value in that range (the route passes the
remote value through unclamped). -/
theorem C4_urgency_range_and_default (f : SubmitForm) (env : Env) (r : SuccessResp)
    (hr : (maintenancePOST f env).resp = some r)
    (hclamp : ∀ sr, env.summarize = some sr → ∀ u, sr.urgencyLevel = some u →
      u = 1 ∨ u = 2 ∨ u = 3 ∨ u = 4) :
    (r.urgency = 1 ∨ r.urgency = 2 ∨ r.urgency = 3 ∨ r.urgency = 4) ∧
    (env.summarize = none → r.urgency = 2) ∧
    (∀ m ∈ (maintenancePOST f env).maintenanceRows,
      m.urgency = getUrgencyText r.urgency ∧
      (m.urgency = "Low" ∨ m.urgency = "Medium" ∨ m.urgency = "High" ∨
        m.urgency = "Critical")) := by
  obtain ⟨uid, pid, hses, hv, hp⟩ := maintenancePOST_resp_inv f env r hr
  have heq := maintenancePOST_eq_runPipeline f env uid pid hses hv hp
  rw [heq, runPipeline_resp] at hr
  have hru : r.urgency = urgencyLevelOf env := by
    injection hr with hr
    rw [← hr]
  refine ⟨?_, ?_, ?_⟩
  · rw [hru]
    cases hsum : env.summarize with
    | none =>
      rw [urgencyLevelOf_none env hsum]
      exact Or.inr (Or.inl rfl)
    | some sr =>
      rw [urgencyLevelOf_some env sr hsum]
      cases hu : sr.urgencyLevel with
      | none => exact Or.inr (Or.inl rfl)
      | some u => simpa using hclamp sr hsum u hu
  · intro hsum
    rw [hru, urgencyLevelOf_none env hsum]
  · intro m hm
    rw [heq, runPipeline_maintenanceRows] at hm
    rcases List.mem_singleton.mp hm with rfl
    rw [hru]
    exact ⟨rfl, getUrgencyText_mem _⟩

/-- C4 counterexample: when the summarization service succeeds with
urgency level 7, the route returns urgency 7 to the caller, outside
`{1,2,3,4}`. -/
theorem C4_counterexample :
    (maintenancePOST okForm urgency7Env).resp.map (·.urgency) = some 7 ∧
    ¬((7 : Nat) = 1 ∨ (7 : Nat) = 2 ∨ (7 : Nat) = 3 ∨ (7 : Nat) = 4) :=
  ⟨rfl, by decide⟩

theorem C4_urgency_range_and_default_witness :
    (maintenancePOST okForm allFailEnv).resp = some okResp ∧
    ((okResp.urgency = 1 ∨ okResp.urgency = 2 ∨ okResp.urgency = 3 ∨ okResp.urgency = 4) ∧
     (allFailEnv.summarize = none → okResp.urgency = 2) ∧
     (∀ m ∈ (maintenancePOST okForm allFailEnv).maintenanceRows,
       m.urgency = getUrgencyText okResp.urgency ∧
       (m.urgency = "Low" ∨ m.urgency = "Medium" ∨ m.urgency = "High" ∨
         m.urgency = "Critical"))) :=
  ⟨rfl, C4_urgency_range_and_default okForm allFailEnv okResp rfl
    (fun sr hsr => Option.noConfusion hsr)⟩

/-- C5: when the image service, the summarization service, the procedure
LLM and every translation call fail, a validated submission still
succeeds with a 201 response, the urgency defaults to 2, the summary is
the raw description truncated to 200 characters, the generated procedure
is the canned 5-step fallback, and the ticket row is persisted. -/
theorem C5_all_services_fail_still_succeeds (f : SubmitForm) (env : Env) (uid pid : Nat)
    (hs : env.session = some uid) (hv : validateSubmission f = none)
    (hp : propertyCheck env.user = some pid)
    (hpy : env.python = none) (hsum : env.summarize = none)
    (hproc : env.procedureResp = none) (htr : ∀ k, env.translate k = none) :
    (maintenancePOST f env).status = 201 ∧
    (maintenancePOST f env).resp.map (·.urgency) = some 2 ∧
    (maintenancePOST f env).resp.map (·.summary) = some (truncate200 f.rawRequest) ∧
    (maintenancePOST f env).procedureText = cannedProcedure (truncate200 f.rawRequest) ∧
    (maintenancePOST f env).maintenanceRows =
      [{ title := f.title, userId := f.userId, propertyId := pid
         rawRequest := f.rawRequest, processedRequest := truncate200 f.rawRequest
         urgency := "Medium", status := "pending" }] := by
  have heq := maintenancePOST_eq_runPipeline f env uid pid hs hv hp
  rw [heq, runPipeline_status, runPipeline_resp, runPipeline_procedureText,
    runPipeline_maintenanceRows]
  refine ⟨rfl, ?_, ?_, ?_, ?_⟩ <;>
    simp [finalSummaryOf, urgencyLevelOf, procedureTextOf, hsum, hproc, getUrgencyText]

theorem C5_all_services_fail_still_succeeds_witness :
    (allFailEnv.session = some 7 ∧ validateSubmission okForm = none ∧
     propertyCheck allFailEnv.user = some 3 ∧ allFailEnv.python = none ∧
     allFailEnv.summarize = none ∧ allFailEnv.procedureResp = none ∧
     (∀ k, allFailEnv.translate k = none)) ∧
    ((maintenancePOST okForm allFailEnv).status = 201 ∧
     (maintenancePOST okForm allFailEnv).resp.map (·.urgency) = some 2 ∧
     (maintenancePOST okForm allFailEnv).resp.map (·.summary) =
       some (truncate200 okForm.rawRequest) ∧
     (maintenancePOST okForm allFailEnv).procedureText =
       cannedProcedure (truncate200 okForm.rawRequest) ∧
     (maintenancePOST okForm allFailEnv).maintenanceRows =
       [{ title := okForm.title, userId := okForm.userId, propertyId := 3
          rawRequest := okForm.rawRequest
          processedRequest := truncate200 okForm.rawRequest
          urgency := "Medium", status := "pending" }]) :=
  ⟨⟨rfl, by decide, rfl, rfl, rfl, rfl, fun _ => rfl⟩,
   C5_all_services_fail_still_succeeds okForm allFailEnv 7 3 rfl (by decide) rfl rfl
     rfl rfl (fun _ => rfl)⟩

/-- C7 (amended): exactly one Resource row is created per entry of the
uploaded-URL list — on a successful upload these entries are exactly the
URLs returned by the storage service (one per uploaded attachment), but
on an upload failure the failure-marker string itself becomes a Resource
row, so rows are not reserved to successfully uploaded attachments. -/
theorem C7_one_resource_row_per_url_entry (f : SubmitForm) (env : Env) (uid pid : Nat)
    (hs : env.session = some uid) (hv : validateSubmission f = none)
    (hp : propertyCheck env.user = some pid) :
    (maintenancePOST f env).resourceRows =
      (uploadedUrlsOf env).map (fun url =>
        { referenceId := env.newMaintenanceId, referenceType := "Maintenance"
          url := url, fileName := lastSegment url }) ∧
    (∀ urls msg, env.upload = .resp true urls msg →
      (maintenancePOST f env).resourceRows.map (·.url) = urls) ∧
    (env.upload = .thrown →
      (maintenancePOST f env).resourceRows.map (·.url) =
        ["Image upload service temporarily unavailable"]) ∧
    (∀ urls msg, env.upload = .resp false urls msg →
      (maintenancePOST f env).resourceRows.map (·.url) =
        ["Failed to upload: " ++ msg]) := by
  have heq := maintenancePOST_eq_runPipeline f env uid pid hs hv hp
  rw [heq, runPipeline_resourceRows]
  refine ⟨rfl, ?_, ?_, ?_⟩
  · intro urls msg hu
    have hup : uploadedUrlsOf env = urls := by
      unfold uploadedUrlsOf
      rw [hu]
    have hcomp : ((fun x : ResourceRow => x.url) ∘ (fun url =>
        ({ referenceId := env.newMaintenanceId, referenceType := "Maintenance"
           url := url, fileName := lastSegment url } : ResourceRow))) = fun u => u := rfl
    rw [hup, List.map_map, hcomp, List.map_id']
  · intro hu
    have hup : uploadedUrlsOf env = ["Image upload service temporarily unavailable"] := by
      unfold uploadedUrlsOf
      rw [hu]
    rw [hup]
    rfl
  · intro urls msg hu
    have hup : uploadedUrlsOf env = ["Failed to upload: " ++ msg] := by
      unfold uploadedUrlsOf
      rw [hu]
    rw [hup]
    rfl

/-- C7 counterexample: with the upload service down, one Resource row is
still created, holding the failure-marker string — a row that corresponds
to no successfully uploaded attachment. -/
theorem C7_counterexample :
    allFailEnv.upload = UploadOutcome.thrown ∧
    (maintenancePOST okForm allFailEnv).resourceRows.map (·.url) =
      ["Image upload service temporarily unavailable"] ∧
    (maintenancePOST okForm allFailEnv).resourceRows ≠ [] :=
  ⟨rfl, rfl, by decide⟩

theorem C7_one_resource_row_per_url_entry_witness :
    (uploadOkEnv.session = some 7 ∧ validateSubmission okForm = none ∧
     propertyCheck uploadOkEnv.user = some 3) ∧
    ((maintenancePOST okForm uploadOkEnv).resourceRows =
      (uploadedUrlsOf uploadOkEnv).map (fun url =>
        { referenceId := uploadOkEnv.newMaintenanceId, referenceType := "Maintenance"
          url := url, fileName := lastSegment url }) ∧
     (∀ urls msg, uploadOkEnv.upload = .resp true urls msg →
       (maintenancePOST okForm uploadOkEnv).resourceRows.map (·.url) = urls) ∧
     (uploadOkEnv.upload = .thrown →
       (maintenancePOST okForm uploadOkEnv).resourceRows.map (·.url) =
         ["Image upload service temporarily unavailable"]) ∧
     (∀ urls msg, uploadOkEnv.upload = .resp false urls msg →
       (maintenancePOST okForm uploadOkEnv).resourceRows.map (·.url) =
         ["Failed to upload: " ++ msg])) :=
  ⟨⟨rfl, by decide, rfl⟩,
   C7_one_resource_row_per_url_entry okForm uploadOkEnv 7 3 rfl (by decide) rfl⟩

/-- C8: an upload failure — whether a non-success response or a thrown
fetch — is captured per batch as a single explicit failure-marker string
in the uploaded-URL list, and the request is not aborted: the ticket row
is still created and a 201 success response is returned. -/
theorem C8_upload_failure_recorded_not_fatal (f : SubmitForm) (env : Env) (uid pid : Nat)
    (hs : env.session = some uid) (hv : validateSubmission f = none)
    (hp : propertyCheck env.user = some pid) :
    (maintenancePOST f env).status = 201 ∧
    (maintenancePOST f env).resp.map (·.uploadedUrls) = some (uploadedUrlsOf env) ∧
    (env.upload = .thrown →
      uploadedUrlsOf env = ["Image upload service temporarily unavailable"]) ∧
    (∀ urls msg, env.upload = .resp false urls msg →
      uploadedUrlsOf env = ["Failed to upload: " ++ msg]) ∧
    (maintenancePOST f env).maintenanceRows.length = 1 := by
  have heq := maintenancePOST_eq_runPipeline f env uid pid hs hv hp
  rw [heq, runPipeline_status, runPipeline_resp, runPipeline_maintenanceRows]
  refine ⟨rfl, rfl, ?_, ?_, rfl⟩
  · intro hu
    simp [uploadedUrlsOf, hu]
  · intro urls msg hu
    simp [uploadedUrlsOf, hu]

theorem C8_upload_failure_recorded_not_fatal_witness :
    (allFailEnv.session = some 7 ∧ validateSubmission okForm = none ∧
     propertyCheck allFailEnv.user = some 3) ∧
    ((maintenancePOST okForm allFailEnv).status = 201 ∧
     (maintenancePOST okForm allFailEnv).resp.map (·.uploadedUrls) =
       some (uploadedUrlsOf allFailEnv) ∧
     (allFailEnv.upload = .thrown →
       uploadedUrlsOf allFailEnv = ["Image upload service temporarily unavailable"]) ∧
     (∀ urls msg, allFailEnv.upload = .resp false urls msg →
       uploadedUrlsOf allFailEnv = ["Failed to upload: " ++ msg]) ∧
     (maintenancePOST okForm allFailEnv).maintenanceRows.length = 1) :=
  ⟨⟨rfl, by decide, rfl⟩,
   C8_upload_failure_recorded_not_fatal okForm allFailEnv 7 3 rfl (by decide) rfl⟩

/-- C10: the `summarizationUsed` flag is the constant `true` both in the
success response and in the persisted Documentation record, regardless
of whether the remote summarization succeeded. -/
theorem C10_summarizationUsed_constant_true (f : SubmitForm) (env : Env) (r : SuccessResp)
    (hr : (maintenancePOST f env).resp = some r) :
    r.summarizationUsed = true ∧
    (maintenancePOST f env).docRows.map (·.summarizationUsed) = [true] := by
  obtain ⟨uid, pid, hses, hv, hp⟩ := maintenancePOST_resp_inv f env r hr
  have heq := maintenancePOST_eq_runPipeline f env uid pid hses hv hp
  rw [heq] at hr ⊢
  rw [runPipeline_resp] at hr
  constructor
  · injection hr with hr
    rw [← hr]
  · exact runPipeline_doc_summarizationUsed f env pid

theorem C10_summarizationUsed_constant_true_witness :
    (maintenancePOST okForm allFailEnv).resp = some okResp ∧
    (okResp.summarizationUsed = true ∧
     (maintenancePOST okForm allFailEnv).docRows.map (·.summarizationUsed) = [true]) :=
  ⟨rfl, C10_summarizationUsed_constant_true okForm allFailEnv okResp rfl⟩

/-! ## The translation stage (claim C6) -/

theorem assembleSteps_getElem? (tr : Nat → Option String) :
    ∀ (l : List (List Char)) (i k : Nat),
      (assembleSteps tr i l)[k]? = (l[k]?).map (fun step =>
        "Step ".toList ++ ((stepNumOf step).getD (toString (i + k + 1)).toList) ++
          ':' :: ' ' :: (((tr (i + k)).map String.toList).getD (stripStepMark step)))
  | [], i, k => by simp [assembleSteps]
  | step :: rest, i, 0 => by simp [assembleSteps]
  | step :: rest, i, k + 1 => by
    have ih := assembleSteps_getElem? tr rest (i + 1) k
    simp only [assembleSteps, List.getElem?_cons_succ]
    rw [ih, show i + 1 + k = i + (k + 1) from by omega]

/-- C6: when translation is requested, each `Step N:` line is translated
by its own independent call; a step whose call fails keeps its
original-language content while a step whose call succeeds carries the
translated text — the assembled procedure is always produced. -/
theorem C6_per_step_translation_isolation (p : String) (tr : Nat → Option String) (k : Nat)
    (hk : k < (stepLinesOf p).length) :
    (tr k = none →
      (assembleSteps tr 0 (stepLinesOf p))[k]? = some ("Step ".toList ++
        ((stepNumOf ((stepLinesOf p).get ⟨k, hk⟩)).getD (toString (k + 1)).toList) ++
        ':' :: ' ' :: stripStepMark ((stepLinesOf p).get ⟨k, hk⟩))) ∧
    (∀ t, tr k = some t →
      (assembleSteps tr 0 (stepLinesOf p))[k]? = some ("Step ".toList ++
        ((stepNumOf ((stepLinesOf p).get ⟨k, hk⟩)).getD (toString (k + 1)).toList) ++
        ':' :: ' ' :: t.toList)) ∧
    translationStage p tr = (joinNL (assembleSteps tr 0 (stepLinesOf p))).asString := by
  have hget : (stepLinesOf p)[k]? = some ((stepLinesOf p).get ⟨k, hk⟩) := by
    rw [List.getElem?_eq_getElem hk]
    rfl
  refine ⟨?_, ?_, rfl⟩
  · intro htr
    rw [assembleSteps_getElem? tr (stepLinesOf p) 0 k, hget]
    simp [htr]
  · intro t htr
    rw [assembleSteps_getElem? tr (stepLinesOf p) 0 k, hget]
    simp [htr]

/-! ## Shape lemmas for the `Step N:` pattern -/

theorem isStepStart_head (c : Char) (l : List Char) (h : c ≠ 'S') :
    isStepStart (c :: l) = false := by
  rcases l with _ | ⟨b, _ | ⟨e, _ | ⟨d, _ | ⟨f, rest⟩⟩⟩⟩ <;> simp [isStepStart, h]

theorem isStepStart_second (a d : Char) (l : List Char) (h : d ≠ 't') :
    isStepStart (a :: d :: l) = false := by
  rcases l with _ | ⟨e, _ | ⟨f, _ | ⟨g, rest⟩⟩⟩ <;> simp [isStepStart, h]

theorem isStepStart_third (a b c : Char) (l : List Char) (h : c ≠ 'e') :
    isStepStart (a :: b :: c :: l) = false := by
  rcases l with _ | ⟨f, _ | ⟨g, rest⟩⟩ <;> simp [isStepStart, h]

theorem isStepStart_fourth (a b c d : Char) (l : List Char) (h : d ≠ 'p') :
    isStepStart (a :: b :: c :: d :: l) = false := by
  rcases l with _ | ⟨g, rest⟩ <;> simp [isStepStart, h]

theorem isStepStart_fifth (a b c d e : Char) (l : List Char) (h : e ≠ ' ') :
    isStepStart (a :: b :: c :: d :: e :: l) = false := by
  simp [isStepStart, h]

theorem safeChunk_no_start : ∀ (u : List Char), safeChunk u = true → ∀ (v : List Char),
    ∀ i < u.length, isStepStart (u.drop i ++ v) = false
  | [], _, _, i, hi => absurd hi (by simp)
  | [c], hu, v, 0, _ => by
    have hc : c ≠ 'S' := by simpa [safeChunk] using hu
    simpa using isStepStart_head c v hc
  | [_], _, _, i + 1, hi => absurd hi (by simp)
  | c :: d :: t, hu, v, 0, _ => by
    have hu' : (c != 'S' || d != 't') = true ∧ safeChunk (d :: t) = true := by
      simpa [safeChunk, Bool.and_eq_true] using hu
    rcases Bool.or_eq_true _ _ |>.mp hu'.1 with hc | hd
    · exact isStepStart_head c _ (by simpa using hc)
    · exact isStepStart_second c d _ (by simpa using hd)
  | c :: d :: t, hu, v, i + 1, hi => by
    have hu' : safeChunk (d :: t) = true := by
      simp [safeChunk, Bool.and_eq_true] at hu
      exact hu.2
    have := safeChunk_no_start (d :: t) hu' v i (by simpa using Nat.lt_of_succ_lt_succ hi)
    simpa using this

theorem checkColonAfterDigits_quote (u w : List Char) :
    checkColonAfterDigits (u ++ '"' :: w) = checkColonAfterDigits (u ++ ['"']) := by
  induction u with
  | nil => rfl
  | cons c t ih =>
    by_cases hc : c.isDigit <;> simp [checkColonAfterDigits, hc, ih]

theorem checkDigitsColon_quote (u w : List Char) :
    checkDigitsColon (u ++ '"' :: w) = checkDigitsColon (u ++ ['"']) := by
  cases u with
  | nil => rfl
  | cons c t => simp [checkDigitsColon, checkColonAfterDigits_quote]

theorem isStepStart_quote (u w : List Char) (h : isStepStart (u ++ ['"']) = false) :
    isStepStart (u ++ '"' :: w) = false := by
  rcases u with _ | ⟨a, _ | ⟨b, _ | ⟨c, _ | ⟨d, _ | ⟨e, rest⟩⟩⟩⟩⟩
  · exact isStepStart_head '"' w (by decide)
  · exact isStepStart_second a '"' w (by decide)
  · exact isStepStart_third a b '"' w (by decide)
  · exact isStepStart_fourth a b c '"' w (by decide)
  · exact isStepStart_fifth a b c d '"' w (by decide)
  · simp only [List.cons_append] at h ⊢
    rw [isStepStart] at h ⊢
    rwa [checkDigitsColon_quote]

/-! ## Behaviour of `insertStep`, `collapseNL`, `trimBoth` and `splitCh`
on concatenations -/

theorem insertStep_append_no_start (u : List Char) :
    ∀ (v : List Char), (∀ i < u.length, isStepStart (u.drop i ++ v) = false) →
      insertStep (u ++ v) = u ++ insertStep v := by
  induction u with
  | nil => intro v _; rfl
  | cons c t ih =>
    intro v h
    have h0 : isStepStart (c :: (t ++ v)) = false := by
      have h' := h 0 (by simp)
      rwa [List.drop_zero, List.cons_append] at h'
    have ht : ∀ i < t.length, isStepStart (t.drop i ++ v) = false := by
      intro i hi
      have h' := h (i + 1) (by simpa using Nat.succ_lt_succ hi)
      simpa using h'
    rw [List.cons_append, insertStep, if_neg (by simp [h0]), ih v ht]
    rfl

theorem collapseAux_head_not_nl (b : Bool) (c : Char) (t : List Char) (hc : c ≠ '\n') :
    collapseAux b (c :: t) = c :: collapseAux false t := by
  cases b <;> simp [collapseAux, hc]

theorem collapseAux_append (u : List Char) :
    ∀ (b : Bool) (v : List Char),
      collapseAux b (u ++ v) = collapseAux b u ++ collapseAux (endFlag b u) v := by
  induction u with
  | nil => intro b v; rfl
  | cons c t ih =>
    intro b v
    by_cases hc : c = '\n'
    · subst hc
      rw [List.cons_append]
      cases b with
      | false =>
        rw [show collapseAux false ('\n' :: (t ++ v)) = '\n' :: collapseAux true (t ++ v) from
          by simp [collapseAux]]
        rw [show collapseAux false ('\n' :: t) = '\n' :: collapseAux true t from
          by simp [collapseAux]]
        rw [show endFlag false ('\n' :: t) = endFlag true t from by simp [endFlag]]
        rw [ih true v]
        simp
      | true =>
        rw [show collapseAux true ('\n' :: (t ++ v)) = collapseAux true (t ++ v) from
          by simp [collapseAux]]
        rw [show collapseAux true ('\n' :: t) = collapseAux true t from by simp [collapseAux]]
        rw [show endFlag true ('\n' :: t) = endFlag true t from by simp [endFlag]]
        exact ih true v
    · rw [List.cons_append, collapseAux_head_not_nl b c _ hc, collapseAux_head_not_nl b c t hc,
        ih false v]
      have hb : (c == '\n') = false := by simp [hc]
      have he : endFlag b (c :: t) = endFlag false t := by
        rw [endFlag, hb]
      rw [he]
      rfl

theorem noNLNL_tail {c : Char} {t : List Char} (h : noNLNL (c :: t) = true) :
    noNLNL t = true := by
  cases t with
  | nil => rfl
  | cons d t' =>
    simp [noNLNL, Bool.and_eq_true] at h
    simp [h.2]

theorem collapseAux_false_id : ∀ (l : List Char), noNLNL l = true → collapseAux false l = l
  | [], _ => rfl
  | [c], _ => by by_cases hc : c = '\n' <;> simp [collapseAux, hc]
  | c :: d :: t, h => by
    have hnd : noNLNL (d :: t) = true := noNLNL_tail h
    by_cases hc : c = '\n'
    · subst hc
      have hd : d ≠ '\n' := by
        simp [noNLNL, Bool.and_eq_true] at h
        simpa using fun hcontra => absurd hcontra h.1
      calc collapseAux false ('\n' :: (d :: t))
          = '\n' :: collapseAux true (d :: t) := by simp [collapseAux]
        _ = '\n' :: (d :: collapseAux false t) := by
            rw [collapseAux_head_not_nl true d t hd]
        _ = '\n' :: collapseAux false (d :: t) := by
            rw [collapseAux_head_not_nl false d t hd]
        _ = '\n' :: (d :: t) := by rw [collapseAux_false_id (d :: t) hnd]
    · calc collapseAux false (c :: (d :: t))
          = c :: collapseAux false (d :: t) := by
            rw [collapseAux_head_not_nl false c _ hc]
        _ = c :: (d :: t) := by rw [collapseAux_false_id (d :: t) hnd]

theorem trimEnd_snoc (u : List Char) (z : Char) (hz : isWS z = false) :
    trimEnd (u ++ [z]) = u ++ [z] := by
  unfold trimEnd
  rw [List.reverse_append]
  simp [List.dropWhile, hz]

theorem trimBoth_nl_wrap (a : Char) (m : List Char) (z : Char)
    (ha : isWS a = false) (hz : isWS z = false) :
    trimBoth ('\n' :: a :: (m ++ [z])) = a :: (m ++ [z]) := by
  unfold trimBoth
  have h1 : List.dropWhile isWS ('\n' :: a :: (m ++ [z])) = a :: (m ++ [z]) := by
    simp +decide [List.dropWhile_cons, ha]
  rw [h1, show a :: (m ++ [z]) = (a :: m) ++ [z] by simp]
  exact trimEnd_snoc (a :: m) z hz

theorem splitCh_ne_nil (sep : Char) : ∀ (l : List Char), splitCh sep l ≠ []
  | [] => by simp [splitCh]
  | c :: t => by
    by_cases hc : c = sep
    · simp [splitCh, hc]
    · rcases h : splitCh sep t with _ | ⟨a, as⟩
      · exact absurd h (splitCh_ne_nil sep t)
      · simp [splitCh, hc, h]

theorem splitCh_cons_sep (sep : Char) (v : List Char) :
    splitCh sep (sep :: v) = [] :: splitCh sep v := by
  simp [splitCh]

theorem splitCh_append_no_sep (sep : Char) (u : List Char) :
    ∀ (v : List Char), (∀ c ∈ u, c ≠ sep) →
      splitCh sep (u ++ v) =
        (u ++ (splitCh sep v).headI) :: (splitCh sep v).tail := by
  induction u with
  | nil =>
    intro v _
    rcases h : splitCh sep v with _ | ⟨a, as⟩
    · exact absurd h (splitCh_ne_nil sep v)
    · simp [h]
  | cons c t ih =>
    intro v hu
    have hc : c ≠ sep := hu c (List.mem_cons_self c t)
    rw [List.cons_append]
    rw [show splitCh sep (c :: (t ++ v)) =
        (match splitCh sep (t ++ v) with
         | [] => [[c]]
         | h :: t' => (c :: h) :: t') from by simp [splitCh, hc]]
    rw [ih v (fun x hx => hu x (List.mem_cons_of_mem c hx))]
    simp

theorem splitCh_append_sep_length : ∀ (sep : Char) (x y : List Char),
    (splitCh sep (x ++ sep :: y)).length =
      (splitCh sep x).length + (splitCh sep y).length
  | sep, [], y => by
    simp [splitCh_cons_sep, splitCh]
    omega
  | sep, c :: t, y => by
    by_cases hc : c = sep
    · subst hc
      rw [List.cons_append, splitCh_cons_sep, splitCh_cons_sep]
      simp only [List.length_cons]
      rw [splitCh_append_sep_length c t y]
      omega
    · have ih := splitCh_append_sep_length sep t y
      rw [List.cons_append]
      rcases h1 : splitCh sep (t ++ sep :: y) with _ | ⟨a, as⟩
      · exact absurd h1 (splitCh_ne_nil sep _)
      · rcases h2 : splitCh sep t with _ | ⟨b, bs⟩
        · exact absurd h2 (splitCh_ne_nil sep t)
        · rw [show splitCh sep (c :: (t ++ sep :: y)) = (c :: a) :: as from by
            simp [splitCh, hc, h1]]
          rw [show splitCh sep (c :: t) = (c :: b) :: bs from by simp [splitCh, hc, h2]]
          rw [h1, h2] at ih
          simpa using ih

theorem splitCh_length_pos (sep : Char) (l : List Char) :
    0 < (splitCh sep l).length :=
  List.length_pos.mpr (splitCh_ne_nil sep l)

/-! ## Normalization fixes the canned fallback templates -/

/-- Both canned templates have the shape
`'S' :: (a1 ++ (s ++ '"' :: tl'))`: a `Step 1:` marker, a
language-specific chunk that cannot start a step marker, the interpolated
summary, and a quoted tail of four further step lines.  Under the stated
side conditions `normalizeSteps` is the identity on such a template. -/
theorem normalize_template_aux (a1 s tl' tlIns m : List Char) (z : Char)
    (hstart : isStepStart ('S' :: (a1 ++ (s ++ '"' :: tl'))) = true)
    (ha1 : safeChunk a1 = true)
    (hsafe : stepSafe s)
    (hnl : noNLNL s = true)
    (hIns : insertStep ('"' :: tl') = tlIns)
    (hColl : ∀ b, collapseAux b tlIns = '"' :: tl')
    (hA1coll : collapseAux false a1 = a1)
    (hA1flag : endFlag false a1 = false)
    (hshape : a1 ++ (s ++ '"' :: tl') = m ++ [z])
    (hz : isWS z = false) :
    normalizeSteps ('S' :: (a1 ++ (s ++ '"' :: tl'))) =
      'S' :: (a1 ++ (s ++ '"' :: tl')) := by
  have hs' : ∀ i < s.length, isStepStart (s.drop i ++ '"' :: tl') = false := by
    intro i hi
    exact isStepStart_quote (s.drop i) tl' (hsafe i hi)
  have h1 : insertStep ('S' :: (a1 ++ (s ++ '"' :: tl'))) =
      '\n' :: 'S' :: (a1 ++ (s ++ tlIns)) := by
    rw [insertStep, if_pos (by simp [hstart])]
    rw [insertStep_append_no_start a1 (s ++ '"' :: tl') (safeChunk_no_start a1 ha1 _)]
    rw [insertStep_append_no_start s ('"' :: tl') hs']
    rw [hIns]
  have h2 : collapseNL ('\n' :: 'S' :: (a1 ++ (s ++ tlIns))) =
      '\n' :: 'S' :: (a1 ++ (s ++ '"' :: tl')) := by
    unfold collapseNL
    rw [show collapseAux false ('\n' :: 'S' :: (a1 ++ (s ++ tlIns))) =
        '\n' :: collapseAux true ('S' :: (a1 ++ (s ++ tlIns))) from by simp [collapseAux]]
    rw [collapseAux_head_not_nl true 'S' _ (by decide)]
    rw [collapseAux_append a1 false (s ++ tlIns), hA1coll, hA1flag]
    rw [collapseAux_append s false tlIns, collapseAux_false_id s hnl]
    rw [hColl (endFlag false s)]
  have h3 : trimBoth ('\n' :: 'S' :: (a1 ++ (s ++ '"' :: tl'))) =
      'S' :: (a1 ++ (s ++ '"' :: tl')) := by
    rw [hshape]
    exact trimBoth_nl_wrap 'S' m z (by decide) hz
  calc normalizeSteps ('S' :: (a1 ++ (s ++ '"' :: tl')))
      = trimBoth (collapseNL (insertStep ('S' :: (a1 ++ (s ++ '"' :: tl'))))) := rfl
    _ = trimBoth (collapseNL ('\n' :: 'S' :: (a1 ++ (s ++ tlIns)))) := by rw [h1]
    _ = trimBoth ('\n' :: 'S' :: (a1 ++ (s ++ '"' :: tl'))) := by rw [h2]
    _ = 'S' :: (a1 ++ (s ++ '"' :: tl')) := h3

theorem fallbackStepsEn_decomp (s : List Char) :
    fallbackStepsEn s = 'S' :: (enA1 ++ (s ++ '"' :: enTail)) := by
  unfold fallbackStepsEn
  rw [show "Step 1: Inspect the reported issue: \"".toList = 'S' :: enA1 from by decide]
  rw [show ("\"\nStep 2: Assess necessary repairs and gather materials" ++
    "\nStep 3: Perform the required maintenance work" ++
    "\nStep 4: Test that the issue is resolved" ++
    "\nStep 5: Clean the work area and update maintenance records").toList =
      '"' :: enTail from by decide]
  simp

theorem fallbackStepsTl_decomp (s : List Char) :
    fallbackStepsTl s = 'S' :: (tgA1 ++ (s ++ '"' :: tgTail)) := by
  unfold fallbackStepsTl
  rw [show "Step 1: Suriin ang iniulat na isyu: \"".toList = 'S' :: tgA1 from by decide]
  rw [show ("\"\nStep 2: Tayahin ang kinakailangang pagkumpuni at tipunin ang mga materyales" ++
    "\nStep 3: Isagawa ang kinakailangang pag-aayos" ++
    "\nStep 4: Subukan kung naayos na ang isyu" ++
    "\nStep 5: Linisin ang lugar at i-update ang mga talaan ng pag-aayos").toList =
      '"' :: tgTail from by decide]
  simp

theorem normalize_fallbackEn (s : List Char) (hsafe : stepSafe s) (hnl : noNLNL s = true) :
    normalizeSteps (fallbackStepsEn s) = fallbackStepsEn s := by
  rw [fallbackStepsEn_decomp]
  refine normalize_template_aux enA1 s enTail enTailIns (enA1 ++ (s ++ enTailQ)) 's'
    rfl (by decide) hsafe hnl rfl (fun b => by cases b <;> decide)
    (by decide) (by decide) ?_ (by decide)
  rw [show ('"' :: enTail : List Char) = enTailQ ++ ['s'] from by decide]
  simp

theorem normalize_fallbackTl (s : List Char) (hsafe : stepSafe s) (hnl : noNLNL s = true) :
    normalizeSteps (fallbackStepsTl s) = fallbackStepsTl s := by
  rw [fallbackStepsTl_decomp]
  refine normalize_template_aux tgA1 s tgTail tgTailIns (tgA1 ++ (s ++ tgTailQ)) 's'
    rfl (by decide) hsafe hnl rfl (fun b => by cases b <;> decide)
    (by decide) (by decide) ?_ (by decide)
  rw [show ('"' :: tgTail : List Char) = tgTailQ ++ ['s'] from by decide]
  simp

theorem fallbackStepsEn_split_shape (s : List Char) :
    fallbackStepsEn s = (('S' :: enA1) ++ (s ++ ['"'])) ++ '\n' :: enTail.tail := by
  rw [fallbackStepsEn_decomp]
  rw [show ('"' :: enTail : List Char) = '"' :: '\n' :: enTail.tail from by decide]
  simp

theorem fallbackStepsTl_split_shape (s : List Char) :
    fallbackStepsTl s = (('S' :: tgA1) ++ (s ++ ['"'])) ++ '\n' :: tgTail.tail := by
  rw [fallbackStepsTl_decomp]
  rw [show ('"' :: tgTail : List Char) = '"' :: '\n' :: tgTail.tail from by decide]
  simp

theorem fallbackStepsEn_ne_nil (s : List Char) : fallbackStepsEn s ≠ [] := by
  rw [fallbackStepsEn_decomp]
  exact List.cons_ne_nil _ _

theorem fallbackStepsTl_ne_nil (s : List Char) : fallbackStepsTl s ≠ [] := by
  rw [fallbackStepsTl_decomp]
  exact List.cons_ne_nil _ _

theorem splitCh_fallbackEn_length (s : List Char) :
    3 ≤ (splitCh '\n' (fallbackStepsEn s)).length := by
  rw [fallbackStepsEn_split_shape, splitCh_append_sep_length]
  have h4 : (splitCh '\n' enTail.tail).length = 4 := by decide
  have hpos := splitCh_length_pos '\n' (('S' :: enA1) ++ (s ++ ['"']))
  omega

theorem splitCh_fallbackTl_length (s : List Char) :
    3 ≤ (splitCh '\n' (fallbackStepsTl s)).length := by
  rw [fallbackStepsTl_split_shape, splitCh_append_sep_length]
  have h4 : (splitCh '\n' tgTail.tail).length = 4 := by decide
  have hpos := splitCh_length_pos '\n' (('S' :: tgA1) ++ (s ++ ['"']))
  omega

theorem stepLineCount_template (a1 tail1 : List Char) (s : List Char)
    (hnl : ∀ c ∈ s, c ≠ '\n')
    (ha1 : ∀ c ∈ ('S' :: a1), c ≠ '\n')
    (hstart : ∀ v : List Char, isStepStart (('S' :: a1) ++ v) = true)
    (hcount : ((splitCh '\n' tail1).filter (fun ln => isStepStart ln)).length = 4) :
    stepLineCount ((('S' :: a1) ++ (s ++ ['"'])) ++ '\n' :: tail1) = 5 := by
  unfold stepLineCount
  rw [splitCh_append_no_sep '\n' (('S' :: a1) ++ (s ++ ['"'])) ('\n' :: tail1) ?hns]
  case hns =>
    intro c hc
    rcases List.mem_append.mp hc with h | h
    · exact ha1 c h
    · rcases List.mem_append.mp h with h' | h'
      · exact hnl c h'
      · rw [List.mem_singleton.mp h']
        decide
  rw [splitCh_cons_sep]
  simp only [List.headI, List.tail_cons]
  have hu : isStepStart ((('S' :: a1) ++ (s ++ ['"'])) ++ []) = true := by
    rw [List.append_nil]
    exact hstart (s ++ ['"'])
  rw [List.filter_cons]
  rw [hu]
  simp only [if_true, List.length_cons]
  rw [hcount]

theorem stepLineCount_fallbackEn (s : List Char) (hnl : ∀ c ∈ s, c ≠ '\n') :
    stepLineCount (fallbackStepsEn s) = 5 := by
  rw [fallbackStepsEn_split_shape]
  exact stepLineCount_template enA1 enTail.tail s hnl (by decide) (fun v => rfl) (by decide)

theorem stepLineCount_fallbackTl (s : List Char) (hnl : ∀ c ∈ s, c ≠ '\n') :
    stepLineCount (fallbackStepsTl s) = 5 := by
  rw [fallbackStepsTl_split_shape]
  exact stepLineCount_template tgA1 tgTail.tail s hnl (by decide) (fun v => rfl) (by decide)

theorem chosenProcedure_of_fallback (p s : List Char) (lang : Bool)
    (hfb : normalizeSteps p = [] ∨ (splitCh '\n' (normalizeSteps p)).length < 3) :
    chosenProcedure p s lang = (if lang then fallbackStepsTl s else fallbackStepsEn s) := by
  simp only [chosenProcedure]
  rw [if_pos hfb]

/-- C3 (amended): whenever the normalized procedure text is empty or has
fewer than 3 newline-separated lines, the formatter discards it entirely
and substitutes the canned 5-step fallback in the selected language;
for a summary containing no newline character, the substituted fallback
consists of exactly 5 valid `Step N:` lines; and the full formatted
message then coincides with the one produced from an empty procedure. -/
theorem C3_fallback_on_short_normalized_text (p s : String) (lang : Bool)
    (hfb : normalizeSteps p.toList = [] ∨
      (splitCh '\n' (normalizeSteps p.toList)).length < 3) :
    chosenProcedure p.toList s.toList lang =
      (if lang then fallbackStepsTl s.toList else fallbackStepsEn s.toList) ∧
    ((∀ c ∈ s.toList, c ≠ '\n') →
      stepLineCount (if lang then fallbackStepsTl s.toList else fallbackStepsEn s.toList) = 5) ∧
    (∀ t u, formatProcedureMessage t p s u lang = formatProcedureMessage t "" s u lang) := by
  refine ⟨chosenProcedure_of_fallback p.toList s.toList lang hfb, ?_, ?_⟩
  · intro hnl
    cases lang with
    | false => simpa using stepLineCount_fallbackEn s.toList hnl
    | true => simpa using stepLineCount_fallbackTl s.toList hnl
  · intro t u
    have h0 : chosenProcedure "".toList s.toList lang =
        (if lang then fallbackStepsTl s.toList else fallbackStepsEn s.toList) :=
      chosenProcedure_of_fallback "".toList s.toList lang (Or.inl rfl)
    simp only [formatProcedureMessage]
    rw [chosenProcedure_of_fallback p.toList s.toList lang hfb, h0]

/-- C3 counterexample: `"a\nb\nc"` has no valid `Step N:` line at all
after normalization, yet the formatter keeps it (it has 3 lines), so the
canned template is not substituted. -/
theorem C3_counterexample :
    stepLineCount (normalizeSteps "a\nb\nc".toList) = 0 ∧
    chosenProcedure "a\nb\nc".toList "sink issue".toList false ≠
      fallbackStepsEn "sink issue".toList ∧
    formatProcedureMessage "Fix sink" "a\nb\nc" "sink issue" 2 false ≠
      formatProcedureMessage "Fix sink" "" "sink issue" 2 false :=
  ⟨by decide, by decide, by decide⟩

theorem C3_fallback_on_short_normalized_text_witness :
    (normalizeSteps "a\nb".toList = [] ∨
      (splitCh '\n' (normalizeSteps "a\nb".toList)).length < 3) ∧
    chosenProcedure "a\nb".toList "water issue".toList false =
      fallbackStepsEn "water issue".toList ∧
    stepLineCount (fallbackStepsEn "water issue".toList) = 5 ∧
    formatProcedureMessage "Fix sink" "a\nb" "water issue" 2 false =
      formatProcedureMessage "Fix sink" "" "water issue" 2 false := by
  have h := C3_fallback_on_short_normalized_text "a\nb" "water issue" false (by decide)
  exact ⟨by decide, by simpa using h.1, by simpa using h.2.1 (by decide), h.2.2 "Fix sink" 2⟩

/-- C9 (amended): re-applying the formatter to the canned fallback text
it substituted — with the same title, summary, urgency and language flag
— reproduces the original output, provided the summary contains no
`Step N:` marker able to start a match (`stepSafe`) and no two
consecutive newline characters (`noNLNL`); the counterexample shows the
restriction on the summary is necessary. -/
theorem C9_formatter_idempotent_on_fallback (t p s : String) (u : Nat) (lang : Bool)
    (hfb : normalizeSteps p.toList = [] ∨
      (splitCh '\n' (normalizeSteps p.toList)).length < 3)
    (hsafe : stepSafe s.toList) (hnl : noNLNL s.toList = true) :
    formatProcedureMessage t
      ((if lang then fallbackStepsTl s.toList else fallbackStepsEn s.toList).asString)
      s u lang =
    formatProcedureMessage t p s u lang := by
  suffices h : chosenProcedure
      ((if lang then fallbackStepsTl s.toList else fallbackStepsEn s.toList).asString).toList
      s.toList lang = chosenProcedure p.toList s.toList lang by
    simp only [formatProcedureMessage]
    rw [h]
  rw [chosenProcedure_of_fallback p.toList s.toList lang hfb]
  have hback : ((if lang then fallbackStepsTl s.toList else
      fallbackStepsEn s.toList).asString).toList =
      (if lang then fallbackStepsTl s.toList else fallbackStepsEn s.toList) := by
    cases lang <;> rfl
  simp only [chosenProcedure]
  rw [hback]
  cases lang with
  | false =>
    show (if normalizeSteps (fallbackStepsEn s.toList) = [] ∨
        (splitCh '\n' (normalizeSteps (fallbackStepsEn s.toList))).length < 3 then
          fallbackStepsEn s.toList
        else normalizeSteps (fallbackStepsEn s.toList)) = fallbackStepsEn s.toList
    rw [normalize_fallbackEn s.toList hsafe hnl]
    rw [if_neg ?hcond]
    case hcond =>
      intro hcon
      rcases hcon with h | h
      · exact fallbackStepsEn_ne_nil s.toList h
      · have := splitCh_fallbackEn_length s.toList
        omega
  | true =>
    show (if normalizeSteps (fallbackStepsTl s.toList) = [] ∨
        (splitCh '\n' (normalizeSteps (fallbackStepsTl s.toList))).length < 3 then
          fallbackStepsTl s.toList
        else normalizeSteps (fallbackStepsTl s.toList)) = fallbackStepsTl s.toList
    rw [normalize_fallbackTl s.toList hsafe hnl]
    rw [if_neg ?hcond]
    case hcond =>
      intro hcon
      rcases hcon with h | h
      · exact fallbackStepsTl_ne_nil s.toList h
      · have := splitCh_fallbackTl_length s.toList
        omega

/-- C9 counterexample: for a summary that itself contains a `Step N:`
marker, re-running the formatter on its own fallback output differs from
the single application — the claim fails without a restriction on the
summary. -/
theorem C9_counterexample :
    ¬ stepSafe "Step 2: x".toList ∧
    formatProcedureMessage "Fix sink"
        ((fallbackStepsEn "Step 2: x".toList).asString) "Step 2: x" 2 false ≠
      formatProcedureMessage "Fix sink" "" "Step 2: x" 2 false :=
  ⟨by decide, by decide⟩

theorem C9_formatter_idempotent_on_fallback_witness :
    (normalizeSteps "".toList = [] ∨
      (splitCh '\n' (normalizeSteps "".toList)).length < 3) ∧
    stepSafe "water issue".toList ∧ noNLNL "water issue".toList = true ∧
    formatProcedureMessage "Fix sink"
        ((fallbackStepsTl "water issue".toList).asString) "water issue" 2 true =
      formatProcedureMessage "Fix sink" "" "water issue" 2 true := by
  refine ⟨by decide, by decide, by decide, ?_⟩
  have h := C9_formatter_idempotent_on_fallback "Fix sink" "" "water issue" 2 true
    (by decide) (by decide) (by decide)
  simpa using h

theorem C6_per_step_translation_isolation_witness :
    exTr 1 = none ∧ exTr 0 = some "Suriin ang tubo" ∧
    1 < (stepLinesOf exProc).length ∧
    (assembleSteps exTr 0 (stepLinesOf exProc))[1]? =
      some ("Step 2: Replace washer".toList) ∧
    (assembleSteps exTr 0 (stepLinesOf exProc))[0]? =
      some ("Step 1: Suriin ang tubo".toList) := by
  refine ⟨rfl, rfl, by decide, ?_, ?_⟩
  · have h := (C6_per_step_translation_isolation exProc exTr 1 (by decide)).1 rfl
    rw [h]
    rfl
  · have h := (C6_per_step_translation_isolation exProc exTr 0 (by decide)).2.1
      "Suriin ang tubo" rfl
    rw [h]
    rfl

end TenantApp
